import Mathlib

/-!
Verification of the stabilized scoring core of the AIWellbeing repository.

The Python sources are shallowly embedded:
* `backend/services/stress_behavior_service.py`:
  `_extract_features`, `_is_idle`, `TemporalSmoother`, `PlattCalibrator`
  (the calibration branch used by `BehaviorPredictor.predict`),
  `BehaviorPredictor.predict`, `predict_from_row` (user-id resolution and
  the per-user smoother registry), `train_user_calibrator`.
* `ML/streamlit_app.py`: `clipped_mean`, the fusion / tiering part of
  `RiskEngine.update_and_score`, and its fit-once anomaly-model policy.

Python floats are modelled exactly as rationals (or, where the real
exponential is required, as real numbers); the externally trained scaler and
head models are opaque parameters, as the spec treats them.
-/

/-- A value stored in a feature record (a Python dict entry).
`num q` is any numeric value (int, float, bool, or numeric string — all of
which `float(...)` converts); `pyNone` is `None` (falsy, so the
`row.get(name, 0.0) or 0.0` idiom replaces it by `0.0`; other falsy
non-numeric values such as `""` behave identically and are subsumed here);
`bad` is a truthy non-numeric value, on which Python's `float(...)` raises. -/
inductive FieldVal where
  | num (q : ℚ)
  | pyNone
  | bad
deriving DecidableEq

/-- A feature record: Python dict from field name to value; `Option.none`
models an absent key. -/
def FeatureRecord : Type := String → Option FieldVal

/-- Models `float(row.get(name, 0.0) or 0.0)`: absent or falsy values give
`0.0`; numeric values convert to themselves; a truthy non-numeric value makes
`float` raise (modelled as `Option.none`). -/
def pyFloat : Option FieldVal → Option ℚ
  | Option.none => Option.some 0
  | Option.some (FieldVal.num q) => Option.some q
  | Option.some FieldVal.pyNone => Option.some 0
  | Option.some FieldVal.bad => Option.none

/-- `_extract_features(row, feature_names)` from
`stress_behavior_service.py` (flattened: the source wraps the list in a
`[1, D]` numpy array, which we keep as the plain list of entries). A raised
conversion error propagates as `Option.none`. -/
def _extract_features (row : FeatureRecord) (feature_names : List String) :
    Option (List ℚ) :=
  feature_names.mapM (fun name => pyFloat (row name))

/-- The epsilon used by `_is_idle` (`eps: float = 1e-6`). -/
def idleEps : ℚ := 1 / 1000000

/-- `_is_idle(row)` from `stress_behavior_service.py`: true iff all activity
counts are `≤ eps` and `active_seconds_fraction ≤ 0.02`. Any truthy
non-numeric activity field makes the Python raise (`Option.none`). -/
def _is_idle (row : FeatureRecord) : Option Bool :=
  (pyFloat (row "ks_event_count")).bind fun ks_events =>
  (pyFloat (row "ks_keydowns")).bind fun kd =>
  (pyFloat (row "ks_keyups")).bind fun ku =>
  (pyFloat (row "mouse_move_count")).bind fun mm =>
  (pyFloat (row "mouse_click_count")).bind fun mc =>
  (pyFloat (row "mouse_scroll_count")).bind fun ms =>
  (pyFloat (row "active_seconds_fraction")).bind fun act =>
  Option.some (decide (ks_events ≤ idleEps) && decide (kd ≤ idleEps) &&
    decide (ku ≤ idleEps) && decide (mm ≤ idleEps) &&
    decide (mc ≤ idleEps) && decide (ms ≤ idleEps) &&
    decide (act ≤ 2 / 100))

/-- `TemporalSmoother` from `stress_behavior_service.py`: the constructor
parameters together with the mutable fields `_ema`, `_state`, `_idle_count`.
Generic over the number field so that theorems can be stated over any
`LinearOrderedField` and witnesses evaluated over `ℚ`. -/
structure TemporalSmoother (α : Type*) where
  alpha_active : α
  alpha_idle : α
  on_t : α
  off_t : α
  idle_reset_k : ℕ
  baseline : α
  ema : Option α
  state : ℕ
  idle_count : ℕ
deriving DecidableEq

/-- A freshly constructed `TemporalSmoother()` with the Python default
arguments (`alpha_active=0.35, alpha_idle=0.85, on_thresh=0.60,
off_thresh=0.40, idle_reset_k=2, baseline=0.20`) and initial mutable state
(`_ema=None, _state=0, _idle_count=0`). -/
def TemporalSmoother.mkDefault (α : Type*) [LinearOrderedField α] :
    TemporalSmoother α :=
  { alpha_active := 35 / 100
    alpha_idle := 85 / 100
    on_t := 60 / 100
    off_t := 40 / 100
    idle_reset_k := 2
    baseline := 20 / 100
    ema := Option.none
    state := 0
    idle_count := 0 }

/-- `TemporalSmoother.step(p, is_idle)`: returns the emitted
`(ema, state)` pair together with the updated smoother (the Python method
mutates `self` and returns the tuple). -/
def TemporalSmoother.step {α : Type*} [LinearOrderedField α]
    (s : TemporalSmoother α) (p : α) (is_idle : Bool) :
    α × ℕ × TemporalSmoother α :=
  let a := if is_idle then s.alpha_idle else s.alpha_active
  let ema1 :=
    match s.ema with
    | Option.none => p
    | Option.some e => a * p + (1 - a) * e
  let idle_count1 := if is_idle then s.idle_count + 1 else 0
  let ema2 :=
    if is_idle = true ∧ s.idle_reset_k ≤ idle_count1 then s.baseline else ema1
  let state2 :=
    if is_idle = true ∧ s.idle_reset_k ≤ idle_count1 then 0 else s.state
  let state3 :=
    if state2 = 0 ∧ s.on_t ≤ ema2 then 1
    else if state2 = 1 ∧ ema2 ≤ s.off_t then 0
    else state2
  (ema2, state3,
    { s with ema := Option.some ema2, state := state3,
             idle_count := idle_count1 })

/-- `TemporalSmoother.force_off()`. -/
def TemporalSmoother.force_off {α : Type*} (s : TemporalSmoother α) :
    TemporalSmoother α :=
  { s with state := 0 }

/-- Feeding a sequence of `(calibrated_prob, is_idle)` inputs to `step`,
keeping the final smoother state. -/
def TemporalSmoother.runSteps {α : Type*} [LinearOrderedField α]
    (s : TemporalSmoother α) : List (α × Bool) → TemporalSmoother α
  | [] => s
  | pb :: rest => TemporalSmoother.runSteps (s.step pb.1 pb.2).2.2 rest

/-- The prior EMA estimate is unset or lies strictly inside the hysteresis
dead band `(off_thresh, on_thresh)`. -/
def TemporalSmoother.emaInBand {α : Type*} [LinearOrderedField α]
    (s : TemporalSmoother α) : Bool :=
  match s.ema with
  | Option.none => true
  | Option.some e => decide (s.off_t < e) && decide (e < s.on_t)

/-- `PlattCalibrator` state: `coef_` and `intercept_`, each possibly `None`.
`PlattCalibrator.from_file` on a missing file yields `⟨none, none⟩`. -/
structure CalState (α : Type*) where
  coef : Option α
  intercept : Option α
deriving DecidableEq

/-- `PlattCalibrator.is_fit()`. -/
def CalState.is_fit {α : Type*} (c : CalState α) : Bool :=
  c.coef.isSome && c.intercept.isSome

/-- The real-number sigmoid `1/(1+exp(-x))` used by
`PlattCalibrator.predict_proba` (via `np.exp`). -/
noncomputable def sigmoid (x : ℝ) : ℝ := 1 / (1 + Real.exp (-x))

/-- `PlattCalibrator.predict_proba(score)`: defined only when fit; an unfit
calibrator raises a `TypeError` in Python (`None * score`), modelled as
`Option.none`. `sigma` is the score-to-probability squashing map
(instantiated with `sigmoid` over `ℝ`). -/
def CalState.predict_proba {α : Type*} [LinearOrderedField α]
    (sigma : α → α) (c : CalState α) (score : α) : Option α :=
  match c.coef, c.intercept with
  | Option.some a, Option.some b => Option.some (sigma (a * score + b))
  | _, _ => Option.none

/-- The calibration branch of `BehaviorPredictor.predict` (lines 209-217):
`if cal.is_fit(): cal_prob = cal.predict_proba(raw_prob) else:
cal_prob = raw_prob`. -/
def pipelineCalibratedProb {α : Type*} [LinearOrderedField α]
    (sigma : α → α) (cal : CalState α) (raw_prob : α) : α :=
  match cal.coef, cal.intercept with
  | Option.some a, Option.some b => sigma (a * raw_prob + b)
  | _, _ => raw_prob

/-- The fields of `BehaviorPredictor` that `predict` reads directly:
`default_thresh` (from `meta.best_thresh`) and `idle_clamp`
(from `meta.idle_clamp_prob`, default 0.10). -/
structure PredictorConfig (α : Type*) where
  default_thresh : α
  idle_clamp : α
deriving DecidableEq

/-- The result dict returned by `BehaviorPredictor.predict`. -/
structure PredictResult (α : Type*) where
  raw_prob : α
  calibrated_prob : α
  smoothed_prob : α
  is_stressed : Bool
  threshold_used : α
  has_calibrator : Bool
deriving DecidableEq

/-- `BehaviorPredictor.predict(row, smoother)`. The externally trained
scaler+head pair is the opaque `headScore` map from the extracted feature
vector to the raw probability (the spec treats it as a black box
`score(vector) -> float`). The smoother argument is the per-user smoother
`predict_from_row` always supplies (when `None`, the Python constructs a
default one; that branch is not exercised by the service entry point).
A raised Python exception propagates as `Option.none`; otherwise the result
dict and the mutated smoother are returned. -/
def predict {α : Type*} [LinearOrderedField α] (cfg : PredictorConfig α)
    (sigma : α → α) (headScore : List ℚ → α) (feature_names : List String)
    (cal : CalState α) (row : FeatureRecord) (sm : TemporalSmoother α) :
    Option (PredictResult α × TemporalSmoother α) :=
  match _extract_features row feature_names with
  | Option.none => Option.none
  | Option.some x =>
    let raw_prob := headScore x
    let cal_prob0 := pipelineCalibratedProb sigma cal raw_prob
    match _is_idle row with
    | Option.none => Option.none
    | Option.some idle =>
      let cal_prob := if idle then min cal_prob0 cfg.idle_clamp else cal_prob0
      let r := sm.step cal_prob idle
      let sm2 := if idle then TemporalSmoother.force_off r.2.2 else r.2.2
      let is_on := if idle then 0 else r.2.1
      Option.some
        ({ raw_prob := raw_prob
           calibrated_prob := cal_prob
           smoothed_prob := r.1
           is_stressed := is_on != 0
           threshold_used := cfg.default_thresh
           has_calibrator := cal.is_fit }, sm2)

/-- Python string truthiness for `Optional[str]`: `None` and `""` are falsy. -/
def pyTruthyStr : Option String → Option String
  | Option.none => Option.none
  | Option.some s => if s = "" then Option.none else Option.some s

/-- The user-id resolution of `predict_from_row`:
`uid = str(user_id or row.get("user_id") or "harsh")`. -/
def resolveUid (user_id : Option String) (row_user_id : Option String) :
    String :=
  match pyTruthyStr user_id with
  | Option.some s => s
  | Option.none =>
    match pyTruthyStr row_user_id with
    | Option.some s => s
    | Option.none => "harsh"

/-- The `_SMOOTHERS` registry lookup in `predict_from_row`: fetch the
per-user smoother, creating and storing a fresh one on first use. Returns
the smoother used for this request and the updated registry. -/
def smootherRegistryGet {S : Type*} (reg : String → Option S) (uid : String)
    (fresh : S) : S × (String → Option S) :=
  match reg uid with
  | Option.some sm => (sm, reg)
  | Option.none =>
    (fresh, fun k => if k = uid then Option.some fresh else reg k)

/-- One row of `labels/stress_30s.csv` as read by `train_user_calibrator`:
the columns the function filters on, with `stress_prob` possibly NaN
(`Option.none`). -/
structure CalRow where
  user_id : String
  confident : ℚ
  coverage : ℚ
  stress_prob : Option ℚ
deriving DecidableEq

/-- The row filtering of `train_user_calibrator` (lines 389-393): keep the
requested user's rows, apply the confidence/coverage quality gate when those
columns are present, and drop rows with missing `stress_prob`. -/
def qualifyingRows (rows : List CalRow) (user_id : String)
    (hasQualityCols : Bool) (covMin : ℚ) : List CalRow :=
  ((rows.filter (fun r => r.user_id = user_id)).filter
      (fun r => !hasQualityCols ||
        (decide (r.confident = 1) && decide (covMin ≤ r.coverage)))).filter
    (fun r => r.stress_prob.isSome)

/-- The error raised by `train_user_calibrator` when too few qualifying rows
remain (`ValueError(f"Need at least {min_rows} rows ...")`), which the spec
calls `InsufficientDataError`. -/
inductive TrainError where
  | insufficientData (need : ℕ) (found : ℕ)
deriving DecidableEq

/-- The default `min_rows` of `train_user_calibrator`. -/
def defaultMinRows : ℕ := 200

/-- `train_user_calibrator(user_id, min_rows)` over an in-memory CSV.
`headScore` is the opaque scaler+head scoring of a row's feature vector and
`fitFn` the opaque 1-D logistic regression fit; both are irrelevant to the
insufficient-data path. On success the fitted `(coef, intercept)` pair is the
state that `cal.save(out_path)` persists; on error nothing is created,
persisted, or mutated (the function raises before constructing the
calibrator). -/
def train_user_calibrator (headScore : CalRow → ℚ)
    (fitFn : List ℚ → List ℚ → ℚ × ℚ) (rows : List CalRow) (user_id : String)
    (min_rows : ℕ) (hasQualityCols : Bool) (covMin : ℚ) :
    Except TrainError (ℚ × ℚ) :=
  let df := qualifyingRows rows user_id hasQualityCols covMin
  if df.length < min_rows then
    Except.error (TrainError.insufficientData min_rows df.length)
  else
    Except.ok
      (fitFn (df.map headScore) (df.map (fun r => r.stress_prob.getD 0)))

/-- `clipped_mean(values)` from `ML/streamlit_app.py`: clip each value to
`[-3, 3]`, then take the mean of the absolute values. -/
def clipped_mean (values : List ℚ) : ℚ :=
  ((values.map (fun v => |min 3 (max (-3) v)|)).sum) / (values.length : ℚ)

/-- The risk tiering of `RiskEngine.update_and_score`:
`"high"` when `risk > 0.75`, `"medium"` when `risk > 0.45`, else `"low"`. -/
def riskLevel (risk : ℚ) : String :=
  if 3 / 4 < risk then "high"
  else if 9 / 20 < risk then "medium"
  else "low"

/-- The fusion tail of `RiskEngine.update_and_score`, given the z-scores of
the six stress-sensitive driver features, the anomaly model's readiness, and
the (opaque, negated) isolation-forest sample score: `risk_stat` is their
clipped mean, `risk_if` the normalized anomaly score (0 when not ready), and
`risk = 0.6 * clip(risk_stat/3, 0, 1) + 0.4 * risk_if`. -/
def updateScoreRisk (driverZ : List ℚ) (if_ready : Bool) (anomScore : ℚ) :
    ℚ × String :=
  let risk_stat := clipped_mean driverZ
  let risk_if := if if_ready then max 0 (min 1 (anomScore / 3)) else 0
  let risk := 6 / 10 * max 0 (min 1 (risk_stat / 3)) + 4 / 10 * risk_if
  (risk, riskLevel risk)

/-- The anomaly-fitting state of `RiskEngine`: the rolling history `X_hist`
and the `if_ready` flag. The feature-vector type is opaque. -/
structure RiskEngine (σ : Type*) where
  X_hist : List σ
  if_ready : Bool
deriving DecidableEq

/-- Python's `l[-n:]`: the last `n` elements of `l`. -/
def lastN {σ : Type*} (n : ℕ) (l : List σ) : List σ :=
  l.drop (l.length - n)

/-- The anomaly-model maintenance step of `RiskEngine.update_and_score`
(lines 365-369): append `x` to the history; if the model is not ready and
the history now exceeds 30 samples, fit it on the last 120 samples and mark
it ready. Returns the new state and the window fitted on (if a fit
happened this call). -/
def RiskEngine.updateFit {σ : Type*} (s : RiskEngine σ) (x : σ) :
    RiskEngine σ × Option (List σ) :=
  let hist := s.X_hist ++ [x]
  if s.if_ready = false ∧ 30 < hist.length then
    ({ X_hist := hist, if_ready := true }, Option.some (lastN 120 hist))
  else
    ({ X_hist := hist, if_ready := s.if_ready }, Option.none)

/-- A freshly constructed `RiskEngine` (`X_hist = []`, `if_ready = False`). -/
def RiskEngine.init {σ : Type*} : RiskEngine σ :=
  { X_hist := [], if_ready := false }

/-- Run a sequence of `update_and_score` calls, collecting the windows the
anomaly model was fitted on, in order of occurrence. -/
def RiskEngine.run {σ : Type*} (s : RiskEngine σ) :
    List σ → RiskEngine σ × List (List σ)
  | [] => (s, [])
  | x :: xs =>
    let r := s.updateFit x
    let rest := RiskEngine.run r.1 xs
    (rest.1, r.2.toList ++ rest.2)

/-! ## Theorems -/

theorem RiskEngine.run_nil {σ : Type*} (s : RiskEngine σ) :
    RiskEngine.run s [] = (s, []) := rfl

theorem RiskEngine.run_cons {σ : Type*} (s : RiskEngine σ) (x : σ)
    (xs : List σ) :
    RiskEngine.run s (x :: xs)
      = ((RiskEngine.run (s.updateFit x).1 xs).1,
         (s.updateFit x).2.toList ++ (RiskEngine.run (s.updateFit x).1 xs).2)
    := rfl

theorem RiskEngine.updateFit_of_ready {σ : Type*} (s : RiskEngine σ) (x : σ)
    (h : s.if_ready = true) :
    s.updateFit x
      = ({ X_hist := s.X_hist ++ [x], if_ready := true }, Option.none) := by
  simp [RiskEngine.updateFit, h]

theorem RiskEngine.updateFit_of_small {σ : Type*} (s : RiskEngine σ) (x : σ)
    (h : s.if_ready = false) (hlen : s.X_hist.length < 30) :
    s.updateFit x
      = ({ X_hist := s.X_hist ++ [x], if_ready := false }, Option.none) := by
  have hc : ¬ 30 < (s.X_hist ++ [x]).length := by
    simp only [List.length_append, List.length_cons, List.length_nil]
    omega
  simp [RiskEngine.updateFit, h, hc]
  omega

theorem RiskEngine.updateFit_of_cross {σ : Type*} (s : RiskEngine σ) (x : σ)
    (h : s.if_ready = false) (hlen : s.X_hist.length = 30) :
    s.updateFit x
      = ({ X_hist := s.X_hist ++ [x], if_ready := true },
         Option.some (lastN 120 (s.X_hist ++ [x]))) := by
  have hc : 30 < (s.X_hist ++ [x]).length := by
    simp [hlen]
  simp [RiskEngine.updateFit, h, hc]
  omega

theorem RiskEngine.run_ready {σ : Type*} (xs : List σ) (s : RiskEngine σ)
    (h : s.if_ready = true) :
    RiskEngine.run s xs
      = ({ X_hist := s.X_hist ++ xs, if_ready := true }, []) := by
  induction xs generalizing s with
  | nil =>
    rw [RiskEngine.run_nil]
    obtain ⟨hist, rdy⟩ := s
    simp only at h
    subst h
    simp
  | cons x xs ih =>
    rw [RiskEngine.run_cons, RiskEngine.updateFit_of_ready s x h]
    rw [ih ({ X_hist := s.X_hist ++ [x], if_ready := true }) rfl]
    simp

theorem RiskEngine.run_short {σ : Type*} (xs : List σ) (s : RiskEngine σ)
    (h : s.if_ready = false) (hlen : s.X_hist.length + xs.length ≤ 30) :
    RiskEngine.run s xs
      = ({ X_hist := s.X_hist ++ xs, if_ready := false }, []) := by
  induction xs generalizing s with
  | nil =>
    rw [RiskEngine.run_nil]
    obtain ⟨hist, rdy⟩ := s
    simp only at h
    subst h
    simp
  | cons x xs ih =>
    simp only [List.length_cons] at hlen
    rw [RiskEngine.run_cons, RiskEngine.updateFit_of_small s x h (by omega)]
    rw [ih ({ X_hist := s.X_hist ++ [x], if_ready := false }) rfl
      (by simp only [List.length_append, List.length_cons, List.length_nil]
          omega)]
    simp

theorem RiskEngine.run_crossing {σ : Type*} (xs : List σ) (s : RiskEngine σ)
    (h : s.if_ready = false) (hL : s.X_hist.length ≤ 30)
    (hsum : 30 < s.X_hist.length + xs.length) :
    (RiskEngine.run s xs).2
        = [lastN 120 (s.X_hist ++ xs.take (31 - s.X_hist.length))] ∧
      (RiskEngine.run s xs).1.if_ready = true := by
  induction xs generalizing s with
  | nil =>
    simp only [List.length_nil] at hsum
    omega
  | cons x xs ih =>
    by_cases hc : s.X_hist.length = 30
    · rw [RiskEngine.run_cons, RiskEngine.updateFit_of_cross s x h hc]
      rw [RiskEngine.run_ready xs (⟨s.X_hist ++ [x], true⟩ : RiskEngine σ)
        rfl]
      constructor
      · simp only [Option.toList_some, List.append_nil, hc]
        rfl
      · rfl
    · have hc2 : s.X_hist.length < 30 := by omega
      rw [RiskEngine.run_cons, RiskEngine.updateFit_of_small s x h hc2]
      have hrec := ih ({ X_hist := s.X_hist ++ [x], if_ready := false }) rfl
        (by simp only [List.length_append, List.length_cons, List.length_nil]
            omega)
        (by simp only [List.length_append, List.length_cons, List.length_nil,
              List.length_cons] at hsum ⊢
            omega)
      simp only [List.length_append, List.length_cons, List.length_nil]
        at hrec
      simp only [Option.toList_none, List.nil_append]
      constructor
      · rw [hrec.1]
        have htake : (31 - s.X_hist.length) = (31 - (s.X_hist.length + 1)) + 1
          := by omega
        rw [htake]
        simp [List.take_succ_cons, List.append_assoc]
      · exact hrec.2

theorem lastN_of_le {σ : Type*} (n : ℕ) (l : List σ) (h : l.length ≤ n) :
    lastN n l = l := by
  unfold lastN
  rw [Nat.sub_eq_zero_of_le h]
  rfl

/-- C9: over any sequence of `update_and_score` calls on a fresh
`RiskEngine`, the isolation forest is fitted at most once; with 30 or fewer
calls it is never fitted and the engine stays not-ready; with more than 30
calls it is fitted exactly once, on the first call at which the accumulated
history exceeds 30 samples (the 31st call), over the most recent
at-most-120 samples (here all 31 seen so far, a window of length ≤ 120),
after which the engine is marked ready and never refits. -/
theorem anomaly_detector_fits_exactly_once {σ : Type*} (xs : List σ) :
    (RiskEngine.run (RiskEngine.init : RiskEngine σ) xs).2.length ≤ 1 ∧
      (xs.length ≤ 30 →
        (RiskEngine.run (RiskEngine.init : RiskEngine σ) xs).2 = [] ∧
        (RiskEngine.run (RiskEngine.init : RiskEngine σ) xs).1.if_ready
          = false) ∧
      (30 < xs.length →
        (RiskEngine.run (RiskEngine.init : RiskEngine σ) xs).2
            = [xs.take 31] ∧
        (RiskEngine.run (RiskEngine.init : RiskEngine σ) xs).1.if_ready
          = true ∧
        ∀ w ∈ (RiskEngine.run (RiskEngine.init : RiskEngine σ) xs).2,
          w.length ≤ 120) := by
  have hshort : xs.length ≤ 30 →
      (RiskEngine.run (RiskEngine.init : RiskEngine σ) xs).2 = [] ∧
      (RiskEngine.run (RiskEngine.init : RiskEngine σ) xs).1.if_ready
        = false := by
    intro hlen
    rw [RiskEngine.run_short xs RiskEngine.init rfl
      (by simpa [RiskEngine.init] using hlen)]
    exact ⟨rfl, rfl⟩
  have hlong : 30 < xs.length →
      (RiskEngine.run (RiskEngine.init : RiskEngine σ) xs).2
          = [xs.take 31] ∧
      (RiskEngine.run (RiskEngine.init : RiskEngine σ) xs).1.if_ready
        = true ∧
      ∀ w ∈ (RiskEngine.run (RiskEngine.init : RiskEngine σ) xs).2,
        w.length ≤ 120 := by
    intro hlen
    have hcross := RiskEngine.run_crossing xs RiskEngine.init rfl
      (by simp [RiskEngine.init]) (by simpa [RiskEngine.init] using hlen)
    have htlen : (xs.take 31).length = 31 := by
      rw [List.length_take]
      omega
    have htake : (RiskEngine.init : RiskEngine σ).X_hist
        ++ xs.take (31 - (RiskEngine.init : RiskEngine σ).X_hist.length)
        = xs.take 31 := by
      simp [RiskEngine.init]
    rw [htake] at hcross
    have hlast : lastN 120 (xs.take 31) = xs.take 31 :=
      lastN_of_le 120 (xs.take 31) (by omega)
    rw [hlast] at hcross
    refine ⟨hcross.1, hcross.2, ?_⟩
    intro w hw
    rw [hcross.1] at hw
    simp only [List.mem_singleton] at hw
    subst hw
    omega
  refine ⟨?_, hshort, hlong⟩
  rcases le_or_lt xs.length 30 with hlen | hlen
  · rw [(hshort hlen).1]
    simp
  · rw [(hlong hlen).1]
    simp

/-- Witness for C9: 31 calls on a fresh engine produce exactly one fit,
over all 31 samples seen, and leave the engine ready. -/
theorem anomaly_detector_fits_exactly_once_witness :
    30 < (List.range 31).length ∧
    (RiskEngine.run (RiskEngine.init : RiskEngine ℕ) (List.range 31)).2
        = [List.range 31] ∧
    (RiskEngine.run (RiskEngine.init : RiskEngine ℕ)
        (List.range 31)).1.if_ready = true := by
  have h := anomaly_detector_fits_exactly_once (List.range 31)
  have h31 : 30 < (List.range 31).length := by simp
  obtain ⟨-, -, h3⟩ := h
  obtain ⟨hfit, hready, -⟩ := h3 h31
  refine ⟨h31, ?_, hready⟩
  rw [hfit]
  simp [List.take_range]

/-- C8: with all six driver z-scores at `+2` and the anomaly detector not
ready, the fused risk of `RiskEngine.update_and_score` is exactly
`0.6 * clip(2/3, 0, 1) + 0.4 * 0 = 0.4`, and since the medium tier requires
risk strictly greater than `0.45`, the reported level is `"low"` —
regardless of the (unused) anomaly score. -/
theorem fusion_risk_all_z_two_not_ready (anomScore : ℚ) :
    clipped_mean (List.replicate 6 2) = 2 ∧
    updateScoreRisk (List.replicate 6 2) false anomScore
      = (2 / 5, "low") := by
  have hm : clipped_mean (List.replicate 6 2) = 2 := by
    norm_num [clipped_mean, List.replicate]
  refine ⟨hm, ?_⟩
  rw [updateScoreRisk, hm]
  norm_num [riskLevel]

/-- C7: when fewer than `min_rows` qualifying labeled rows remain after the
user-id filter, the confidence/coverage quality gate, and the `stress_prob`
dropna, `train_user_calibrator` fails with the insufficient-data error
(carrying the required and found counts) for every head-scoring and fitting
function — in particular the `Except.error` result carries no fitted
`(coef, intercept)` state, so nothing is created, persisted, or mutated and
the entity's calibrator remains unfit. -/
theorem train_calibrator_insufficient_rows (headScore : CalRow → ℚ)
    (fitFn : List ℚ → List ℚ → ℚ × ℚ) (rows : List CalRow) (user_id : String)
    (min_rows : ℕ) (hasQualityCols : Bool) (covMin : ℚ)
    (h : (qualifyingRows rows user_id hasQualityCols covMin).length
      < min_rows) :
    train_user_calibrator headScore fitFn rows user_id min_rows
        hasQualityCols covMin
      = Except.error (TrainError.insufficientData min_rows
          (qualifyingRows rows user_id hasQualityCols covMin).length) := by
  unfold train_user_calibrator
  rw [if_pos h]

/-- Witness for C7: an empty label CSV (0 qualifying rows) with the default
`min_rows = 200` yields the insufficient-data error. -/
theorem train_calibrator_insufficient_rows_witness :
    (qualifyingRows [] "harsh" true (3 / 10)).length < defaultMinRows ∧
    train_user_calibrator (fun _ => 0) (fun _ _ => (0, 0)) [] "harsh"
        defaultMinRows true (3 / 10)
      = Except.error (TrainError.insufficientData defaultMinRows 0) := by
  refine ⟨by decide, ?_⟩
  exact train_calibrator_insufficient_rows (fun _ => 0) (fun _ _ => (0, 0))
    [] "harsh" defaultMinRows true (3 / 10) (by decide)

/-- C10: when neither the `user_id` argument nor `row["user_id"]` is a
truthy string (each absent, `None`, or the empty string), `predict_from_row`
resolves the entity id to the literal `"harsh"`; two such anonymous
requests therefore hit the same `_SMOOTHERS` registry slot: the second
request's lookup returns exactly the smoother object the first request used
(and stored, if it was the first ever). -/
theorem anonymous_requests_share_harsh_smoother {S : Type*}
    (u1 r1 u2 r2 : Option String) (reg : String → Option S) (f1 f2 : S)
    (hu1 : u1 = Option.none ∨ u1 = Option.some "")
    (hr1 : r1 = Option.none ∨ r1 = Option.some "")
    (hu2 : u2 = Option.none ∨ u2 = Option.some "")
    (hr2 : r2 = Option.none ∨ r2 = Option.some "") :
    resolveUid u1 r1 = "harsh" ∧ resolveUid u2 r2 = "harsh" ∧
    (smootherRegistryGet
        (smootherRegistryGet reg (resolveUid u1 r1) f1).2
        (resolveUid u2 r2) f2).1
      = (smootherRegistryGet reg (resolveUid u1 r1) f1).1 := by
  have e1 : resolveUid u1 r1 = "harsh" := by
    rcases hu1 with h | h <;> rcases hr1 with h2 | h2 <;> subst h <;>
      subst h2 <;> rfl
  have e2 : resolveUid u2 r2 = "harsh" := by
    rcases hu2 with h | h <;> rcases hr2 with h2 | h2 <;> subst h <;>
      subst h2 <;> rfl
  refine ⟨e1, e2, ?_⟩
  rw [e1, e2]
  unfold smootherRegistryGet
  cases hreg : reg "harsh" with
  | some sm => simp [hreg]
  | none => simp [hreg]

/-- Witness for C10: with an empty registry, a `None` explicit user id, and
an empty-string row user id (and vice versa), both requests resolve to
`"harsh"` and the second retrieves the first request's smoother. -/
theorem anonymous_requests_share_harsh_smoother_witness :
    resolveUid Option.none (Option.some "") = "harsh" ∧
    resolveUid (Option.some "") Option.none = "harsh" ∧
    (smootherRegistryGet
        (smootherRegistryGet (fun _ => (Option.none : Option ℕ))
          (resolveUid Option.none (Option.some "")) 0).2
        (resolveUid (Option.some "") Option.none) 1).1
      = (smootherRegistryGet (fun _ => (Option.none : Option ℕ))
          (resolveUid Option.none (Option.some "")) 0).1 :=
  anonymous_requests_share_harsh_smoother Option.none (Option.some "")
    (Option.some "") Option.none (fun _ => Option.none) 0 1
    (Or.inl rfl) (Or.inr rfl) (Or.inr rfl) (Or.inl rfl)

theorem pyFloat_of_ne_bad (v : Option FieldVal)
    (h : v ≠ Option.some FieldVal.bad) :
    pyFloat v = Option.some ((pyFloat v).getD 0) := by
  match v with
  | Option.none => rfl
  | Option.some (FieldVal.num q) => rfl
  | Option.some FieldVal.pyNone => rfl
  | Option.some FieldVal.bad => exact absurd rfl h

theorem extract_features_eq_of_no_bad (row : FeatureRecord)
    (feature_names : List String)
    (h : ∀ name ∈ feature_names, row name ≠ Option.some FieldVal.bad) :
    _extract_features row feature_names
      = Option.some
          (feature_names.map (fun name => (pyFloat (row name)).getD 0)) := by
  induction feature_names with
  | nil => rfl
  | cons n ns ih =>
    have hn := pyFloat_of_ne_bad (row n) (h n (by simp))
    have hns := ih (fun m hm => h m (by simp [hm]))
    unfold _extract_features at hns ⊢
    rw [List.mapM_cons, hn, hns]
    rfl

/-- C6 (amended): for every feature record whose present values are all
convertible (no truthy non-numeric value at a schema name),
`_extract_features` succeeds and returns a vector of exactly
`len(schema)` entries, substituting `0.0` for every absent or null (falsy)
value; in particular an empty record yields the all-zero vector of length
`len(schema)`. (A truthy non-numeric value instead raises; see the
counterexample.) -/
theorem extract_features_schema_stable (row : FeatureRecord)
    (feature_names : List String)
    (h : ∀ name ∈ feature_names, row name ≠ Option.some FieldVal.bad) :
    _extract_features row feature_names
        = Option.some
            (feature_names.map (fun name => (pyFloat (row name)).getD 0)) ∧
      (feature_names.map (fun name => (pyFloat (row name)).getD 0)).length
        = feature_names.length ∧
      _extract_features (fun _ => Option.none) feature_names
        = Option.some (feature_names.map (fun _ => (0 : ℚ))) := by
  refine ⟨extract_features_eq_of_no_bad row feature_names h, by simp, ?_⟩
  exact extract_features_eq_of_no_bad (fun _ => Option.none) feature_names
    (fun name _ => by simp)

/-- Witness for C6: a record holding a null and a numeric value, against a
three-name schema, extracts to the substituted vector of length 3. -/
theorem extract_features_schema_stable_witness :
    (∀ name ∈ ["a", "b", "c"],
      (fun nm => if nm = "a" then Option.some FieldVal.pyNone
        else if nm = "b" then Option.some (FieldVal.num 7)
        else Option.none) name ≠ Option.some FieldVal.bad) ∧
    _extract_features
        (fun nm => if nm = "a" then Option.some FieldVal.pyNone
          else if nm = "b" then Option.some (FieldVal.num 7)
          else Option.none) ["a", "b", "c"]
      = Option.some [0, 7, 0] := by
  have hno : ∀ name ∈ ["a", "b", "c"],
      (fun nm => if nm = "a" then Option.some FieldVal.pyNone
        else if nm = "b" then Option.some (FieldVal.num 7)
        else Option.none) name ≠ Option.some FieldVal.bad := by decide
  refine ⟨hno, ?_⟩
  rw [(extract_features_schema_stable
    (fun nm => if nm = "a" then Option.some FieldVal.pyNone
      else if nm = "b" then Option.some (FieldVal.num 7)
      else Option.none) ["a", "b", "c"] hno).1]
  rfl

/-- C6 counterexample: the claim says the builder substitutes `0.0` for
non-numeric values and never fails, but `_extract_features` evaluates
`float(...)` on each present truthy value, so a truthy non-numeric value
(e.g. the string `"abc"`) raises a `ValueError` instead of producing a
vector: the call fails (`Option.none`), returning no vector at all. -/
theorem extract_features_nonnumeric_raises :
    _extract_features
        (fun nm => if nm = "a" then Option.some FieldVal.bad
          else Option.none) ["a"]
      = Option.none := by
  rfl

theorem convex_comb_mem_open {α : Type*} [LinearOrderedField α]
    (a lo hi p e : α) (ha0 : 0 ≤ a) (ha1 : a ≤ 1) (hp1 : lo < p)
    (hp2 : p < hi) (he1 : lo < e) (he2 : e < hi) :
    lo < a * p + (1 - a) * e ∧ a * p + (1 - a) * e < hi := by
  constructor
  · rcases eq_or_lt_of_le ha0 with h | h
    · have he : a * p + (1 - a) * e = e := by rw [← h]; ring
      rw [he]
      exact he1
    · have h1 : a * lo < a * p := mul_lt_mul_of_pos_left hp1 h
      have h2 : (1 - a) * lo ≤ (1 - a) * e :=
        mul_le_mul_of_nonneg_left he1.le (by linarith)
      have hlo : a * lo + (1 - a) * lo = lo := by ring
      linarith
  · rcases eq_or_lt_of_le ha1 with h | h
    · have hp : a * p + (1 - a) * e = p := by rw [h]; ring
      rw [hp]
      exact hp2
    · have h1 : a * p ≤ a * hi := mul_le_mul_of_nonneg_left hp2.le ha0
      have h2 : (1 - a) * e < (1 - a) * hi :=
        mul_lt_mul_of_pos_left he2 (by linarith)
      have hhi : a * hi + (1 - a) * hi = hi := by ring
      linarith

theorem convex_comb_bounds {α : Type*} [LinearOrderedField α] (a p e : α)
    (ha0 : 0 ≤ a) (ha1 : a ≤ 1) :
    min e p ≤ a * p + (1 - a) * e ∧ a * p + (1 - a) * e ≤ max e p := by
  constructor
  · have h1 : a * min e p ≤ a * p :=
      mul_le_mul_of_nonneg_left (min_le_right e p) ha0
    have h2 : (1 - a) * min e p ≤ (1 - a) * e :=
      mul_le_mul_of_nonneg_left (min_le_left e p) (by linarith)
    have hm : a * min e p + (1 - a) * min e p = min e p := by ring
    linarith
  · have h1 : a * p ≤ a * max e p :=
      mul_le_mul_of_nonneg_left (le_max_right e p) ha0
    have h2 : (1 - a) * e ≤ (1 - a) * max e p :=
      mul_le_mul_of_nonneg_left (le_max_left e p) (by linarith)
    have hm : a * max e p + (1 - a) * max e p = max e p := by ring
    linarith

theorem step_not_idle_in_band {α : Type*} [LinearOrderedField α]
    (s : TemporalSmoother α) (p : α)
    (ha0 : 0 ≤ s.alpha_active) (ha1 : s.alpha_active ≤ 1)
    (hband : s.emaInBand = true) (hp1 : s.off_t < p) (hp2 : p < s.on_t) :
    (s.step p false).2.2.state = s.state ∧
      (s.step p false).2.2.emaInBand = true := by
  cases hse : s.ema with
  | none =>
    have hno1 : ¬ s.on_t ≤ p := not_le.mpr hp2
    have hno2 : ¬ p ≤ s.off_t := not_le.mpr hp1
    constructor
    · simp [TemporalSmoother.step, hse, hno1, hno2]
    · simp [TemporalSmoother.step, TemporalSmoother.emaInBand, hse, hp1, hp2]
  | some e =>
    rw [TemporalSmoother.emaInBand, hse] at hband
    simp only [Bool.and_eq_true, decide_eq_true_eq] at hband
    obtain ⟨he1, he2⟩ := hband
    have hcc := convex_comb_mem_open s.alpha_active s.off_t s.on_t p e
      ha0 ha1 hp1 hp2 he1 he2
    have hno1 : ¬ s.on_t ≤ s.alpha_active * p + (1 - s.alpha_active) * e :=
      not_le.mpr hcc.2
    have hno2 : ¬ s.alpha_active * p + (1 - s.alpha_active) * e ≤ s.off_t :=
      not_le.mpr hcc.1
    constructor
    · simp [TemporalSmoother.step, hse, hno1, hno2]
    · simp [TemporalSmoother.step, TemporalSmoother.emaInBand, hse,
        hcc.1, hcc.2]

/-- C1 (amended): for every `TemporalSmoother` whose active decay rate lies
in `[0, 1]` and whose EMA is unset or strictly inside the dead band
`(off_thresh, on_thresh)`, feeding any sequence of calibrated probabilities
that stays strictly within `(off_thresh, on_thresh)` through `step` with
`is_idle = false` never changes the emitted decision from its initial
value (the hysteresis transitions OFF→ON at `ema >= on_threshold` and
ON→OFF at `ema <= off_threshold` cannot fire inside the band). The idle
hard-reset path can change the decision even for in-band probabilities; see
the counterexample. -/
theorem hysteresis_dead_band_no_flicker {α : Type*} [LinearOrderedField α]
    (s : TemporalSmoother α) (ps : List α)
    (ha0 : 0 ≤ s.alpha_active) (ha1 : s.alpha_active ≤ 1)
    (hband : s.emaInBand = true)
    (hps : ∀ p ∈ ps, s.off_t < p ∧ p < s.on_t) :
    (s.runSteps (ps.map (fun p => (p, false)))).state = s.state := by
  induction ps generalizing s with
  | nil => rfl
  | cons p ps ih =>
    obtain ⟨hp1, hp2⟩ := hps p (List.mem_cons_self p ps)
    have hstep := step_not_idle_in_band s p ha0 ha1 hband hp1 hp2
    have hrec := ih (s.step p false).2.2 ha0 ha1 hstep.2
      (fun q hq => hps q (List.mem_cons_of_mem p hq))
    simp only [List.map_cons, TemporalSmoother.runSteps]
    rw [hrec, hstep.1]

/-- Witness for C1: the default smoother (band `(0.40, 0.60)`, fresh state)
fed the in-band probabilities `0.50, 0.525` without idleness keeps its
initial OFF decision. -/
theorem hysteresis_dead_band_no_flicker_witness :
    (0 ≤ (TemporalSmoother.mkDefault ℚ).alpha_active ∧
      (TemporalSmoother.mkDefault ℚ).alpha_active ≤ 1 ∧
      (TemporalSmoother.mkDefault ℚ).emaInBand = true ∧
      ∀ p ∈ [(1 : ℚ) / 2, 21 / 40],
        (TemporalSmoother.mkDefault ℚ).off_t < p ∧
        p < (TemporalSmoother.mkDefault ℚ).on_t) ∧
    ((TemporalSmoother.mkDefault ℚ).runSteps
        ([(1 : ℚ) / 2, 21 / 40].map (fun p => (p, false)))).state
      = (TemporalSmoother.mkDefault ℚ).state := by
  have h1 : 0 ≤ (TemporalSmoother.mkDefault ℚ).alpha_active := by
    norm_num [TemporalSmoother.mkDefault]
  have h2 : (TemporalSmoother.mkDefault ℚ).alpha_active ≤ 1 := by
    norm_num [TemporalSmoother.mkDefault]
  have h3 : (TemporalSmoother.mkDefault ℚ).emaInBand = true := rfl
  have h4 : ∀ p ∈ [(1 : ℚ) / 2, 21 / 40],
      (TemporalSmoother.mkDefault ℚ).off_t < p ∧
      p < (TemporalSmoother.mkDefault ℚ).on_t := by
    intro p hp
    rcases List.mem_pair.mp hp with h | h <;> subst h <;>
      constructor <;> norm_num [TemporalSmoother.mkDefault]
  exact ⟨⟨h1, h2, h3, h4⟩,
    hysteresis_dead_band_no_flicker (TemporalSmoother.mkDefault ℚ)
      [(1 : ℚ) / 2, 21 / 40] h1 h2 h3 h4⟩

/-- C1 counterexample: the claim as stated quantifies over every
`TemporalSmoother` and every input sequence whose probabilities stay
strictly inside `(off_threshold, on_threshold)`, with no restriction on the
idle flags. But after one non-idle step at `0.7` the default smoother is ON
with `off_t = 0.40 < 0.50 < 0.60 = on_t`; feeding `0.50` twice with
`is_idle = true` triggers the idle-streak hard reset, which forces the
decision OFF — the decision changes although every fed probability stayed
strictly inside the dead band. -/
theorem hysteresis_dead_band_no_flicker_cex :
    (((TemporalSmoother.mkDefault ℚ).step (7 / 10) false).2.2.off_t
        = 2 / 5 ∧
      ((TemporalSmoother.mkDefault ℚ).step (7 / 10) false).2.2.on_t
        = 3 / 5 ∧
      (2 / 5 < (1 : ℚ) / 2 ∧ (1 : ℚ) / 2 < 3 / 5) ∧
      ((TemporalSmoother.mkDefault ℚ).step (7 / 10) false).2.2.state = 1) ∧
    ((((TemporalSmoother.mkDefault ℚ).step (7 / 10) false).2.2).runSteps
        [((1 : ℚ) / 2, true), ((1 : ℚ) / 2, true)]).state = 0 := by
  constructor
  · refine ⟨?_, ?_, by norm_num, ?_⟩ <;>
      norm_num [TemporalSmoother.step, TemporalSmoother.mkDefault]
  · norm_num [TemporalSmoother.runSteps, TemporalSmoother.step,
      TemporalSmoother.mkDefault]

theorem idle_step_resets {α : Type*} [LinearOrderedField α]
    (s : TemporalSmoother α) (p : α) (hk : s.idle_reset_k = 2)
    (hb : s.baseline = 1 / 5) (hon : s.on_t = 3 / 5)
    (hc : 1 ≤ s.idle_count) :
    (s.step p true).2.2.ema = Option.some s.baseline ∧
      (s.step p true).2.2.state = 0 := by
  have hle : s.idle_reset_k ≤ s.idle_count + 1 := by omega
  have hno : ¬ s.on_t ≤ s.baseline := by
    rw [hon, hb]
    norm_num
  constructor
  · simp [TemporalSmoother.step, hle]
  · simp [TemporalSmoother.step, hle, hno]

theorem idle_run_resets_aux {α : Type*} [LinearOrderedField α] :
    ∀ (ps : List α) (p : α) (s : TemporalSmoother α),
      s.idle_reset_k = 2 → s.baseline = 1 / 5 → s.on_t = 3 / 5 →
      1 ≤ s.idle_count →
      (s.runSteps ((p :: ps).map (fun q => (q, true)))).ema
          = Option.some s.baseline ∧
        (s.runSteps ((p :: ps).map (fun q => (q, true)))).state = 0 := by
  intro ps
  induction ps with
  | nil =>
    intro p s hk hb hon hc
    simp only [List.map_cons, List.map_nil, TemporalSmoother.runSteps]
    exact idle_step_resets s p hk hb hon hc
  | cons q ps ih =>
    intro p s hk hb hon hc
    simp only [List.map_cons, TemporalSmoother.runSteps]
    have hrec := ih q (s.step p true).2.2 hk hb hon
      (by show 1 ≤ s.idle_count + 1; omega)
    simp only [List.map_cons, TemporalSmoother.runSteps] at hrec
    exact hrec

/-- C2: for every `TemporalSmoother` with the reference parameters
(`idle_reset_k = 2`, `baseline = 0.20`, `on_thresh = 0.60`), calling `step`
with `is_idle = true` for at least two consecutive windows hard-resets the
internal EMA to the configured baseline and forces the emitted decision
OFF, regardless of the calibrated probabilities supplied in those windows
(the final `step` returns exactly `(baseline, 0)`). -/
theorem idle_streak_resets_to_baseline {α : Type*} [LinearOrderedField α]
    (s : TemporalSmoother α) (ps : List α) (hk : s.idle_reset_k = 2)
    (hb : s.baseline = 1 / 5) (hon : s.on_t = 3 / 5)
    (hlen : 2 ≤ ps.length) :
    (s.runSteps (ps.map (fun q => (q, true)))).ema
        = Option.some s.baseline ∧
      (s.runSteps (ps.map (fun q => (q, true)))).state = 0 := by
  cases ps with
  | nil => simp at hlen
  | cons p t =>
    cases t with
    | nil => simp at hlen
    | cons q rest =>
      simp only [List.map_cons, TemporalSmoother.runSteps]
      have hrec := idle_run_resets_aux (q :: rest).tail q (s.step p true).2.2
        hk hb hon (by show 1 ≤ s.idle_count + 1; omega)
      simp only [List.tail_cons, List.map_cons, TemporalSmoother.runSteps]
        at hrec
      exact hrec

/-- Witness for C2: the default smoother (which has the reference
parameters) fed two idle windows at calibrated probability `0.9` ends with
EMA equal to the baseline and decision OFF. -/
theorem idle_streak_resets_to_baseline_witness :
    ((TemporalSmoother.mkDefault ℚ).idle_reset_k = 2 ∧
      (TemporalSmoother.mkDefault ℚ).baseline = 1 / 5 ∧
      (TemporalSmoother.mkDefault ℚ).on_t = 3 / 5 ∧
      2 ≤ ([(9 : ℚ) / 10, 9 / 10]).length) ∧
    ((TemporalSmoother.mkDefault ℚ).runSteps
        ([(9 : ℚ) / 10, 9 / 10].map (fun q => (q, true)))).ema
      = Option.some ((TemporalSmoother.mkDefault ℚ).baseline) ∧
    ((TemporalSmoother.mkDefault ℚ).runSteps
        ([(9 : ℚ) / 10, 9 / 10].map (fun q => (q, true)))).state = 0 := by
  have hk : (TemporalSmoother.mkDefault ℚ).idle_reset_k = 2 := rfl
  have hb : (TemporalSmoother.mkDefault ℚ).baseline = 1 / 5 := by
    norm_num [TemporalSmoother.mkDefault]
  have hon : (TemporalSmoother.mkDefault ℚ).on_t = 3 / 5 := by
    norm_num [TemporalSmoother.mkDefault]
  have hlen : 2 ≤ ([(9 : ℚ) / 10, 9 / 10]).length := by simp
  exact ⟨⟨hk, hb, hon, hlen⟩,
    idle_streak_resets_to_baseline (TemporalSmoother.mkDefault ℚ)
      [(9 : ℚ) / 10, 9 / 10] hk hb hon hlen⟩

/-- C4 (amended): on every `step` after the first (the EMA is set), as long
as the idle hard-reset does not fire in that step (the window is not idle,
or the incremented idle streak is still below `idle_reset_k`) and the
selected decay rate lies in `[0, 1]`, the returned smoothed probability
lies between the previous EMA and the input calibrated probability,
inclusive (EWMA convexity). When the idle reset fires, the returned value
is the baseline instead, which can lie outside that interval; see the
counterexample. -/
theorem step_convex_bound {α : Type*} [LinearOrderedField α]
    (s : TemporalSmoother α) (p : α) (is_idle : Bool) (e : α)
    (hema : s.ema = Option.some e)
    (ha0 : 0 ≤ (if is_idle then s.alpha_idle else s.alpha_active))
    (ha1 : (if is_idle then s.alpha_idle else s.alpha_active) ≤ 1)
    (hnoreset : is_idle = true → s.idle_count + 1 < s.idle_reset_k) :
    min e p ≤ (s.step p is_idle).1 ∧ (s.step p is_idle).1 ≤ max e p := by
  cases is_idle with
  | false =>
    simp only [Bool.false_eq_true, if_false] at ha0 ha1
    have hcb := convex_comb_bounds s.alpha_active p e ha0 ha1
    have hstep : (s.step p false).1
        = s.alpha_active * p + (1 - s.alpha_active) * e := by
      simp [TemporalSmoother.step, hema]
    rw [hstep]
    exact hcb
  | true =>
    have hcount := hnoreset rfl
    have hX : ¬ s.idle_reset_k ≤ s.idle_count + 1 := by omega
    simp only [if_true] at ha0 ha1
    have hcb := convex_comb_bounds s.alpha_idle p e ha0 ha1
    have hstep : (s.step p true).1
        = s.alpha_idle * p + (1 - s.alpha_idle) * e := by
      simp [TemporalSmoother.step, hema, hX]
    rw [hstep]
    exact hcb

/-- Witness for C4: the default smoother after one non-idle step at `0.5`
(EMA set to `0.5`), stepped non-idly at `0.3`, returns a smoothed value in
`[min(0.5, 0.3), max(0.5, 0.3)]`. -/
theorem step_convex_bound_witness :
    ((((TemporalSmoother.mkDefault ℚ).step (1 / 2) false).2.2).ema
        = Option.some (1 / 2) ∧
      0 ≤ (((TemporalSmoother.mkDefault ℚ).step
          (1 / 2) false).2.2).alpha_active ∧
      (((TemporalSmoother.mkDefault ℚ).step
          (1 / 2) false).2.2).alpha_active ≤ 1) ∧
    min ((1 : ℚ) / 2) (3 / 10)
        ≤ ((((TemporalSmoother.mkDefault ℚ).step (1 / 2) false).2.2).step
            (3 / 10) false).1 ∧
      ((((TemporalSmoother.mkDefault ℚ).step (1 / 2) false).2.2).step
          (3 / 10) false).1 ≤ max ((1 : ℚ) / 2) (3 / 10) := by
  have hema : (((TemporalSmoother.mkDefault ℚ).step (1 / 2) false).2.2).ema
      = Option.some (1 / 2) := by
    simp [TemporalSmoother.step, TemporalSmoother.mkDefault]
  have ha0 : (0 : ℚ) ≤ (if false then
      (((TemporalSmoother.mkDefault ℚ).step (1 / 2) false).2.2).alpha_idle
      else (((TemporalSmoother.mkDefault ℚ).step
        (1 / 2) false).2.2).alpha_active) := by
    norm_num [TemporalSmoother.step, TemporalSmoother.mkDefault]
  have ha1 : (if false then
      (((TemporalSmoother.mkDefault ℚ).step (1 / 2) false).2.2).alpha_idle
      else (((TemporalSmoother.mkDefault ℚ).step
        (1 / 2) false).2.2).alpha_active) ≤ 1 := by
    norm_num [TemporalSmoother.step, TemporalSmoother.mkDefault]
  refine ⟨⟨hema, by simpa using ha0, by simpa using ha1⟩, ?_⟩
  exact step_convex_bound (((TemporalSmoother.mkDefault ℚ).step
      (1 / 2) false).2.2) (3 / 10) false (1 / 2) hema ha0 ha1
    (fun h => Bool.noConfusion h)

/-- C4 counterexample: after one idle step at `0.9` the default smoother
has EMA `0.9` and idle streak 1; a second idle step at `0.9` triggers the
idle hard-reset, so the returned smoothed probability is the baseline
`0.2`, which does not lie between the previous EMA `0.9` and the input
`0.9` — the claimed bound fails on idle-reset steps. -/
theorem step_convex_bound_cex :
    (((TemporalSmoother.mkDefault ℚ).step (9 / 10) true).2.2.ema
        = Option.some (9 / 10) ∧
      ((TemporalSmoother.mkDefault ℚ).step (9 / 10) true).2.2.idle_count
        = 1) ∧
    ((((TemporalSmoother.mkDefault ℚ).step (9 / 10) true).2.2).step
        (9 / 10) true).1 = 1 / 5 ∧
    ¬ (min ((9 : ℚ) / 10) (9 / 10)
        ≤ ((((TemporalSmoother.mkDefault ℚ).step (9 / 10) true).2.2).step
            (9 / 10) true).1) := by
  have h1 : ((((TemporalSmoother.mkDefault ℚ).step (9 / 10) true).2.2).step
      (9 / 10) true).1 = 1 / 5 := by
    norm_num [TemporalSmoother.step, TemporalSmoother.mkDefault]
  refine ⟨⟨?_, ?_⟩, h1, ?_⟩
  · simp [TemporalSmoother.step, TemporalSmoother.mkDefault]
  · simp [TemporalSmoother.step, TemporalSmoother.mkDefault]
  · rw [h1]
    norm_num

/-- C5: for every input row the activity classifier flags idle, `predict`
(when it returns at all) reports `is_stressed = false` regardless of the
raw model score, the calibrator, or the prior hysteresis state, and the
reported `calibrated_prob` is capped at the idle-clamp ceiling
(`idle_clamp_prob`, reference 0.10): the calibrated probability is clamped
before being fed to the smoother and the decision is forced OFF after. -/
theorem idle_row_forces_calm {α : Type*} [LinearOrderedField α]
    (cfg : PredictorConfig α) (sigma : α → α) (headScore : List ℚ → α)
    (feature_names : List String) (cal : CalState α) (row : FeatureRecord)
    (sm : TemporalSmoother α) (out : PredictResult α × TemporalSmoother α)
    (hidle : _is_idle row = Option.some true)
    (hout : predict cfg sigma headScore feature_names cal row sm
      = Option.some out) :
    out.1.is_stressed = false ∧ out.1.calibrated_prob ≤ cfg.idle_clamp := by
  unfold predict at hout
  cases hx : _extract_features row feature_names with
  | none =>
    rw [hx] at hout
    simp at hout
  | some x =>
    rw [hx, hidle] at hout
    injection hout with h
    subst h
    exact ⟨rfl, min_le_right _ _⟩

/-- Witness for C5: an all-absent row is flagged idle, and `predict` on it
(unfit calibrator, raw score 0.9, fresh default smoother, idle clamp 0.10)
returns `is_stressed = false` with `calibrated_prob ≤ 0.10`. -/
theorem idle_row_forces_calm_witness :
    _is_idle (fun _ => Option.none) = Option.some true ∧
    (predict (⟨1 / 2, 1 / 10⟩ : PredictorConfig ℚ) id (fun _ => 9 / 10) []
        ⟨Option.none, Option.none⟩ (fun _ => Option.none)
        (TemporalSmoother.mkDefault ℚ)).map
      (fun o => (o.1.is_stressed, decide (o.1.calibrated_prob ≤ 1 / 10)))
      = Option.some (false, true) := by
  have hidle : _is_idle (fun _ => Option.none) = Option.some true := by
    norm_num [_is_idle, pyFloat, idleEps]
  obtain ⟨out, hout⟩ : ∃ o, predict (⟨1 / 2, 1 / 10⟩ : PredictorConfig ℚ)
      id (fun _ => 9 / 10) [] ⟨Option.none, Option.none⟩
      (fun _ => Option.none) (TemporalSmoother.mkDefault ℚ)
      = Option.some o := by
    unfold predict
    rw [show _extract_features (fun _ => Option.none) []
      = Option.some [] from rfl, hidle]
    exact ⟨_, rfl⟩
  have h := idle_row_forces_calm (⟨1 / 2, 1 / 10⟩ : PredictorConfig ℚ) id
    (fun _ => 9 / 10) [] ⟨Option.none, Option.none⟩ (fun _ => Option.none)
    (TemporalSmoother.mkDefault ℚ) out hidle hout
  have h2 : out.1.calibrated_prob ≤ 1 / 10 := h.2
  refine ⟨hidle, ?_⟩
  rw [hout]
  show Option.some (out.1.is_stressed,
      decide (out.1.calibrated_prob ≤ (1 : ℚ) / 10))
    = Option.some (false, true)
  rw [h.1, decide_eq_true h2]

/-- C3 counterexample: the spec says an unfit calibrator falls back to
`sigmoid(raw_score)`, but the pipeline's calibration branch uses the raw
score unchanged when `is_fit()` is false. At `raw_score = 0` the pipeline
produces `0` while `sigmoid(0) = 1/2`, so the two differ. -/
theorem calibrator_sigmoid_fallback_cex :
    CalState.is_fit (⟨Option.none, Option.none⟩ : CalState ℝ) = false ∧
    pipelineCalibratedProb sigmoid ⟨Option.none, Option.none⟩ (0 : ℝ)
      = 0 ∧
    sigmoid 0 = 1 / 2 ∧
    pipelineCalibratedProb sigmoid ⟨Option.none, Option.none⟩ (0 : ℝ)
      ≠ sigmoid 0 := by
  have hs : sigmoid 0 = 1 / 2 := by
    unfold sigmoid
    rw [neg_zero, Real.exp_zero]
    norm_num
  refine ⟨rfl, rfl, hs, ?_⟩
  rw [hs]
  show (0 : ℝ) ≠ 1 / 2
  norm_num

/-- C3 (amended): when the per-entity calibrator is unfit, the calibrated
probability used by the scoring pipeline equals the raw score itself (an
identity fallback, not the sigmoid), and the result is flagged
`has_calibrator = false`; stated on non-idle rows so the idle clamp does
not interfere with the reported value. -/
theorem calibrator_unfit_uses_raw_score {α : Type*} [LinearOrderedField α]
    (cfg : PredictorConfig α) (sigma : α → α) (headScore : List ℚ → α)
    (feature_names : List String) (cal : CalState α) (row : FeatureRecord)
    (sm : TemporalSmoother α) (out : PredictResult α × TemporalSmoother α)
    (hfit : cal.is_fit = false)
    (hidle : _is_idle row = Option.some false)
    (hout : predict cfg sigma headScore feature_names cal row sm
      = Option.some out) :
    out.1.calibrated_prob = out.1.raw_prob ∧
      out.1.has_calibrator = false := by
  obtain ⟨c, i⟩ := cal
  unfold predict at hout
  cases hx : _extract_features row feature_names with
  | none =>
    rw [hx] at hout
    simp at hout
  | some x =>
    rw [hx, hidle] at hout
    injection hout with h
    subst h
    cases c with
    | some a =>
      cases i with
      | some b => simp [CalState.is_fit] at hfit
      | none => exact ⟨rfl, rfl⟩
    | none =>
      cases i with
      | some b => exact ⟨rfl, rfl⟩
      | none => exact ⟨rfl, rfl⟩

/-- Witness for C3 (amended): a non-idle row (mouse activity present) with
an unfit calibrator: the reported calibrated probability equals the raw
score and `has_calibrator` is false. -/
theorem calibrator_unfit_uses_raw_score_witness :
    CalState.is_fit (⟨Option.none, Option.none⟩ : CalState ℚ) = false ∧
    _is_idle (fun nm => if nm = "mouse_move_count"
        then Option.some (FieldVal.num 5) else Option.none)
      = Option.some false ∧
    (predict (⟨1 / 2, 1 / 10⟩ : PredictorConfig ℚ) id (fun _ => 9 / 10) []
        ⟨Option.none, Option.none⟩
        (fun nm => if nm = "mouse_move_count"
          then Option.some (FieldVal.num 5) else Option.none)
        (TemporalSmoother.mkDefault ℚ)).map
      (fun o => (decide (o.1.calibrated_prob = o.1.raw_prob),
        o.1.has_calibrator))
      = Option.some (true, false) := by
  have hfit : CalState.is_fit (⟨Option.none, Option.none⟩ : CalState ℚ)
      = false := rfl
  have hidle : _is_idle (fun nm => if nm = "mouse_move_count"
      then Option.some (FieldVal.num 5) else Option.none)
      = Option.some false := by
    simp [_is_idle, pyFloat]
    norm_num [idleEps]
  obtain ⟨out, hout⟩ : ∃ o, predict (⟨1 / 2, 1 / 10⟩ : PredictorConfig ℚ)
      id (fun _ => 9 / 10) [] ⟨Option.none, Option.none⟩
      (fun nm => if nm = "mouse_move_count"
        then Option.some (FieldVal.num 5) else Option.none)
      (TemporalSmoother.mkDefault ℚ) = Option.some o := by
    unfold predict
    rw [show _extract_features (fun nm => if nm = "mouse_move_count"
      then Option.some (FieldVal.num 5) else Option.none) []
      = Option.some [] from rfl, hidle]
    exact ⟨_, rfl⟩
  have h := calibrator_unfit_uses_raw_score
    (⟨1 / 2, 1 / 10⟩ : PredictorConfig ℚ) id (fun _ => 9 / 10) []
    ⟨Option.none, Option.none⟩
    (fun nm => if nm = "mouse_move_count"
      then Option.some (FieldVal.num 5) else Option.none)
    (TemporalSmoother.mkDefault ℚ) out hfit hidle hout
  refine ⟨hfit, hidle, ?_⟩
  rw [hout]
  simp [h.1, h.2]
